import Mathlib

/-!
The pick-first recipe, `pickfirst_workflow.go`.

A shallow embedding of `cmd/samples/recipes/pickfirst/pickfirst_workflow.go`.

* `time.Duration` is a signed 64-bit count of nanoseconds.  It is embedded as an `Int`, and the
  one arithmetic operation of the source, `elapsedDuration += time.Second`, wraps modulo `2^64`
  (`wrap64`), as Go's signed addition does.
* `sampleActivity` is stateful: it sleeps, records heartbeats, polls its context and logs.  It is
  embedded as a function that returns, next to the Go return values, the list of effects it
  performed, in program order (`ActEvent`).  Its `for` loop is not bounded by the source, so the
  embedding takes a fuel argument that bounds the number of evaluations of the loop condition;
  `none` means that the fuel ran out before the function returned.
* `SamplePickFirstWorkflow` is sequential decider code over the Cadence client library.  It is
  embedded as a function of the environment (what the activities' futures resolve to, and which
  future the selector finds ready first) that returns the Go return value, the final value of
  `firstResponse` and the list of library calls it made, in program order (`WfEvent`).
-/

namespace PickFirst

/-! ## Durations -/

/-- Go `time.Nanosecond`. -/
def Nanosecond : Int := 1

/-- Go `time.Microsecond`. -/
def Microsecond : Int := 1000 * Nanosecond

/-- Go `time.Millisecond`. -/
def Millisecond : Int := 1000 * Microsecond

/-- Go `time.Second`. -/
def Second : Int := 1000 * Millisecond

/-- Largest value of a Go `int64` (and so of a `time.Duration`). -/
def maxInt64 : Int := 2 ^ 63 - 1

/-- Smallest value of a Go `int64`. -/
def minInt64 : Int := -(2 ^ 63)

/-- Two's-complement wrap-around of a mathematical integer into the `int64` range: the value a Go
`int64` holds after an arithmetic operation whose exact result is `x`. -/
def wrap64 (x : Int) : Int := (x + 2 ^ 63) % 2 ^ 64 - 2 ^ 63

/-- Go `fmtFrac` of package `time`: formats the last `prec` decimal digits of `v` as a fraction,
omitting trailing zeros and, when all digits are zero, the decimal point.  The first argument is
the text already written to the right; the result is the text and `v / 10^prec`. -/
def fmtFrac : Nat → List Char → Nat → Bool → List Char × Nat
  | 0, buf, v, print => (if print then '.' :: buf else buf, v)
  | prec + 1, buf, v, print =>
    let digit := v % 10
    let print := print || digit != 0
    fmtFrac prec (if print then Nat.digitChar digit :: buf else buf) (v / 10) print

/-- Go `fmtInt` of package `time`: the decimal digits of `v` (`0` for zero), written in front of
the text `buf`. -/
def fmtInt (buf : List Char) (v : Nat) : List Char := Nat.toDigits 10 v ++ buf

/-- Go `time.Duration.String`, which the verb `%s` of `fmt.Sprintf` calls for a `time.Duration`:
a string of the form `72h3m0.5s`.  Leading zero units are omitted, a duration of less than one
second uses a smaller unit (milli-, micro- or nanoseconds) and the zero duration is `0s`. -/
def Duration.String (d : Int) : String :=
  let neg := decide (d < 0)
  let u := d.natAbs
  let body : List Char :=
    if u < Second.toNat then
      if u = 0 then ['0', 's']
      else if u < Microsecond.toNat then
        let r := fmtFrac 0 ['n', 's'] u false
        fmtInt r.1 r.2
      else if u < Millisecond.toNat then
        let r := fmtFrac 3 ['µ', 's'] u false
        fmtInt r.1 r.2
      else
        let r := fmtFrac 6 ['m', 's'] u false
        fmtInt r.1 r.2
    else
      let r := fmtFrac 9 ['s'] u false
      let w := fmtInt r.1 (r.2 % 60)
      let u := r.2 / 60
      if u > 0 then
        let w := fmtInt ('m' :: w) (u % 60)
        let u := u / 60
        if u > 0 then fmtInt ('h' :: w) u else w
      else w
  String.mk (if neg then '-' :: body else body)

/-! ## The activity -/

/-- The error a cancelled or expired `context.Context` reports through `ctx.Err()`. -/
inductive CtxError where
  | canceled
  | deadlineExceeded
  deriving DecidableEq, Repr

/-- What an execution of `sampleActivity` sees of its `context.Context`: `ctx k` is the outcome of
the `select` on `ctx.Done()` in loop iteration `k` (iterations are counted from 1).  `none` means
that the channel is still open, so the `default` case runs; `some err` means that the channel is
closed, `err` being what `ctx.Err()` then returns (by the contract of `context.Context`,
`ctx.Err()` is non-nil exactly when `ctx.Done()` is closed). -/
abbrev Context := Nat → Option CtxError

/-- The observable effects of `sampleActivity`, one constructor per call it makes. -/
inductive ActEvent where
  /-- Effect `time.Sleep(d)`, returned. -/
  | sleep (d : Int)
  /-- Effect `activity.RecordHeartbeat(ctx, details)`. -/
  | heartbeat (details : String)
  /-- The `select` on `ctx.Done()`; `observed` tells whether the channel was found closed. -/
  | check (observed : Bool)
  /-- Effect `logger.Info(msg)`. -/
  | logInfo (msg : String)
  deriving DecidableEq, Repr

/-- Go `fmt.Sprintf("Branch %d is cancelled.", currentBranchID)`. -/
def cancelledMsg (currentBranchID : Int) : String :=
  "Branch " ++ toString currentBranchID ++ " is cancelled."

/-- Go `fmt.Sprintf("Branch %d done in %s.", currentBranchID, totalDuration)`. -/
def doneMsg (currentBranchID : Int) (totalDuration : Int) : String :=
  "Branch " ++ toString currentBranchID ++ " done in " ++ Duration.String totalDuration ++ "."

/-- The Go return values of `sampleActivity` (`error` is `none` for `nil`) and the effects it
performed, in program order. -/
abbrev ActResult := (String × Option CtxError) × List ActEvent

/-- The `for elapsedDuration < totalDuration` loop of `sampleActivity` together with the code
after it, started with `iter` iterations completed and the given value of `elapsedDuration`.
The first argument bounds the number of evaluations of the loop condition. -/
def sampleActivityLoop (ctx : Context) (currentBranchID : Int) (totalDuration : Int) :
    Nat → Int → Nat → Option ActResult
  | 0, _, _ => none
  | fuel + 1, elapsedDuration, iter =>
    if elapsedDuration < totalDuration then
      -- time.Sleep(time.Second); elapsedDuration += time.Second; activity.RecordHeartbeat(...)
      let elapsedDuration := wrap64 (elapsedDuration + Second)
      match ctx (iter + 1) with
      | some err =>
        -- case <-ctx.Done():
        let msg := cancelledMsg currentBranchID
        some ((msg, some err),
          [ActEvent.sleep Second, ActEvent.heartbeat "status-report-to-workflow",
           ActEvent.check true, ActEvent.logInfo msg])
      | none =>
        -- default:
        (sampleActivityLoop ctx currentBranchID totalDuration fuel elapsedDuration (iter + 1)).map
          fun r => (r.1, ActEvent.sleep Second :: ActEvent.heartbeat "status-report-to-workflow"
            :: ActEvent.check false :: r.2)
    else
      some ((doneMsg currentBranchID totalDuration, none), [])

/-- Go `sampleActivity(ctx, currentBranchID, totalDuration)`: `elapsedDuration` starts at
`time.Nanosecond`. -/
def sampleActivity (fuel : Nat) (ctx : Context) (currentBranchID : Int) (totalDuration : Int) :
    Option ActResult :=
  sampleActivityLoop ctx currentBranchID totalDuration fuel Nanosecond 0

/-- Number of completed `time.Sleep` calls in a list of effects. -/
def sleeps (tr : List ActEvent) : Nat :=
  tr.countP fun e => match e with
    | ActEvent.sleep _ => true
    | _ => false

/-- Number of recorded heartbeats in a list of effects. -/
def heartbeats (tr : List ActEvent) : Nat :=
  tr.countP fun e => match e with
    | ActEvent.heartbeat _ => true
    | _ => false

/-- Number of cancellation checks in a list of effects. -/
def checks (tr : List ActEvent) : Nat :=
  tr.countP fun e => match e with
    | ActEvent.check _ => true
    | _ => false

/-- Total time slept in a list of effects, in nanoseconds. -/
def sleptTime : List ActEvent → Int
  | [] => 0
  | ActEvent.sleep d :: tr => d + sleptTime tr
  | _ :: tr => sleptTime tr

/-- The effects of one loop iteration of `sampleActivity`, up to and including its cancellation
check: sleep one second, record a heartbeat, poll `ctx.Done()`. -/
def iteration (observed : Bool) : List ActEvent :=
  [ActEvent.sleep Second, ActEvent.heartbeat "status-report-to-workflow", ActEvent.check observed]

/-- The effects of `n` consecutive loop iterations none of which observes cancellation. -/
def iterations : Nat → List ActEvent
  | 0 => []
  | n + 1 => iteration false ++ iterations n

/-- The value of `elapsedDuration` after `k` loop iterations when it is `e` now. -/
def elapsedFrom (e : Int) : Nat → Int
  | 0 => e
  | k + 1 => elapsedFrom (wrap64 (e + Second)) k

/-- The value of `elapsedDuration` after `k` loop iterations of `sampleActivity`. -/
def elapsedAt (k : Nat) : Int := elapsedFrom Nanosecond k

/-- The pacing of a list of effects: in every prefix the number of heartbeats is the number of
completed sleeps or one less; the two are equal at every cancellation check, which directly
follows a heartbeat; and every heartbeat directly follows a sleep of one second, the total time
slept before it being one second per heartbeat up to and including it. -/
def Paced (tr : List ActEvent) : Prop :=
  ∀ m : Nat,
    (heartbeats (tr.take m) ≤ sleeps (tr.take m) ∧
      sleeps (tr.take m) ≤ heartbeats (tr.take m) + 1) ∧
    (∀ b, tr[m]? = some (ActEvent.check b) →
      sleeps (tr.take m) = heartbeats (tr.take m) ∧
      ∃ m', m = m' + 1 ∧ tr[m']? = some (ActEvent.heartbeat "status-report-to-workflow")) ∧
    (∀ d, tr[m]? = some (ActEvent.heartbeat d) →
      sleptTime (tr.take m) = (heartbeats (tr.take m) + 1) * Second ∧
      ∃ m', m = m' + 1 ∧ tr[m']? = some (ActEvent.sleep Second))

/-- Ceiling of the quotient `a / b` for a positive divisor `b`. -/
def ceilDiv (a b : Int) : Int := -((-a) / b)

/-! ## The workflow -/

/-- The two futures of the workflow: `f1` is the activity of branch 0, `f2` that of branch 1. -/
inductive FutureId where
  | f1
  | f2
  deriving DecidableEq, Repr

/-- The error an activity's future can resolve with. -/
inductive ActivityError where
  | canceled
  | timeout
  | generic (reason : String)
  deriving DecidableEq, Repr

/-- What a `workflow.Future` of an activity holds once it is ready: the result of the activity,
when there is one, and its error (`none` for `nil`). -/
structure FutureOutcome where
  value : Option String
  err : Option ActivityError
  deriving DecidableEq, Repr

/-- Cadence `Future.Get(ctx, valuePtr)` on a ready future: the result is stored through
`valuePtr` when the future has no error, has a value and `valuePtr` is not nil; the error of the
future is returned.  The first component is the pointee afterwards (`none` for a nil pointer). -/
def FutureOutcome.Get (o : FutureOutcome) (valuePtr : Option String) :
    Option String × Option ActivityError :=
  match o.err, o.value, valuePtr with
  | none, some v, some _ => (some v, none)
  | _, _, _ => (valuePtr, o.err)

/-- How the Cadence worker reports the return values of an activity function to the workflow: a
nil error makes the future hold the result, a non-nil error makes it hold the error only (the
context's cancellation is reported as a cancellation error). -/
def futureOf (r : String × Option CtxError) : FutureOutcome :=
  match r.2 with
  | none => { value := some r.1, err := none }
  | some CtxError.canceled => { value := none, err := some ActivityError.canceled }
  | some CtxError.deadlineExceeded => { value := none, err := some ActivityError.timeout }

/-- The environment of one execution of the workflow: what each activity's future resolves to,
and the future that `selector.Select` finds ready first. -/
structure Env where
  outcome : FutureId → FutureOutcome
  firstReady : FutureId

/-- The calls of `SamplePickFirstWorkflow` into the Cadence library. -/
inductive WfEvent where
  /-- Call `workflow.NewSelector(ctx)`. -/
  | newSelector
  /-- Call `workflow.WithCancel(ctx)`. -/
  | withCancel
  /-- Call `workflow.WithActivityOptions(childCtx, ao)`, with `ao.WaitForCancellation`. -/
  | withActivityOptions (waitForCancellation : Bool)
  /-- Call `workflow.ExecuteActivity(childCtx, sampleActivity, branch, duration)`. -/
  | executeActivity (f : FutureId) (currentBranchID : Int) (totalDuration : Int)
  /-- Call `selector.AddFuture(f, callback)`. -/
  | addFuture (f : FutureId)
  /-- Call `selector.Select(ctx)`, returned. -/
  | select
  /-- Call `f.Get(ctx, &firstResponse)` inside a selector callback. -/
  | callbackGet (f : FutureId)
  /-- Call `cancelHandler()`. -/
  | cancel
  /-- Call `f.Get(ctx, nil)` in the loop over `pendingFutures`, returned. -/
  | drainGet (f : FutureId)
  /-- Call `workflow.GetLogger(ctx).Info(msg)`. -/
  | logInfo (msg : String)
  deriving DecidableEq, Repr

/-- What an execution of `SamplePickFirstWorkflow` produces: the returned `error` (`none` for
`nil`), the final value of the local `firstResponse`, and the library calls made before the
`return`, in program order. -/
structure WfResult where
  err : Option ActivityError
  firstResponse : String
  trace : List WfEvent
  deriving DecidableEq, Repr

/-- Go `SamplePickFirstWorkflow(ctx)`. -/
def SamplePickFirstWorkflow (env : Env) : WfResult :=
  let firstResponse := ""
  let pendingFutures := [FutureId.f1, FutureId.f2]
  let tr := [WfEvent.newSelector, WfEvent.withCancel, WfEvent.withActivityOptions true,
    WfEvent.executeActivity FutureId.f1 0 (Second * 2),
    WfEvent.executeActivity FutureId.f2 1 (Second * 10),
    WfEvent.addFuture FutureId.f1, WfEvent.addFuture FutureId.f2]
  -- selector.Select(ctx) waits for a future to be ready and runs its callback, which is
  -- f.Get(ctx, &firstResponse) for either future; the error of Get is dropped
  let f := env.firstReady
  let firstResponse := ((env.outcome f).Get (some firstResponse)).1.getD firstResponse
  let tr := tr ++ [WfEvent.callbackGet f, WfEvent.select]
  -- cancelHandler()
  let tr := tr ++ [WfEvent.cancel]
  -- for _, f := range pendingFutures { f.Get(ctx, nil) }; the error of Get is dropped
  let tr := tr ++ pendingFutures.map WfEvent.drainGet
  let tr := tr ++ [WfEvent.logInfo "Workflow completed."]
  { err := none, firstResponse := firstResponse, trace := tr }

/-! ## The two branches of the workflow -/

/-- The executions of the two activities the workflow starts: `f1` is
`sampleActivity(ctx, 0, time.Second*2)` and `f2` is `sampleActivity(ctx, 1, time.Second*10)`,
each under what it sees of the shared cancellable context. -/
def branchRun (fuel : Nat) (ctx : FutureId → Context) : FutureId → Option ActResult
  | FutureId.f1 => sampleActivity fuel (ctx FutureId.f1) 0 (Second * 2)
  | FutureId.f2 => sampleActivity fuel (ctx FutureId.f2) 1 (Second * 10)

/-- The time, counted from the start of an activity, at which its cancellation check number `k`
takes place: `k` sleeps of one second have completed by then (only sleeping takes time). -/
def checkTime (k : Nat) : Int := k * Second

/-- The time, counted from its start, at which an execution of an activity returns: the total
time it slept. -/
def returnTime (res : Option ActResult) : Int :=
  match res with
  | some r => sleptTime r.2
  | none => 0

/-- The time at which the workflow calls `cancelHandler()`, and so at which the cancellation
signal becomes set: `selector.Select(ctx)` returns when the future it finds ready first has
resolved, that is when that future's activity returns, and `cancelHandler()` is the next
statement of the workflow. -/
def cancelTime (fuel : Nat) (ctx : FutureId → Context) (env : Env) : Int :=
  returnTime (branchRun fuel ctx env.firstReady)

/-! ## Arithmetic of the wrapped duration -/

theorem wrap64_of_inRange (x : Int) (hlo : minInt64 ≤ x) (hhi : x ≤ maxInt64) : wrap64 x = x := by
  unfold wrap64
  unfold minInt64 at hlo
  unfold maxInt64 at hhi
  omega

theorem wrap64_inRange (x : Int) : minInt64 ≤ wrap64 x ∧ wrap64 x ≤ maxInt64 := by
  unfold wrap64 minInt64 maxInt64
  omega

theorem wrap64_add_wrap64 (x s : Int) : wrap64 (wrap64 x + s) = wrap64 (x + s) := by
  unfold wrap64
  omega

theorem elapsedFrom_wrap64 (x : Int) (k : Nat) :
    elapsedFrom (wrap64 x) k = wrap64 (x + k * Second) := by
  induction k generalizing x with
  | zero => simp [elapsedFrom]
  | succ k ih =>
    simp only [elapsedFrom]
    rw [wrap64_add_wrap64, ih]
    congr 1
    push_cast
    ring

theorem elapsedAt_eq (k : Nat) : elapsedAt k = wrap64 (1 + k * 1000000000) := by
  have h : (Nanosecond : Int) = wrap64 1 := by
    unfold Nanosecond wrap64
    norm_num
  unfold elapsedAt
  rw [h, elapsedFrom_wrap64]
  simp [Second, Millisecond, Microsecond, Nanosecond]

theorem elapsedFrom_succ (e : Int) (k : Nat) :
    elapsedFrom e (k + 1) = wrap64 (elapsedFrom e k + Second) := by
  induction k generalizing e with
  | zero => simp [elapsedFrom]
  | succ k ih =>
    rw [elapsedFrom, ih (wrap64 (e + Second))]
    rfl

theorem elapsedAt_succ (k : Nat) : elapsedAt (k + 1) = wrap64 (elapsedAt k + Second) :=
  elapsedFrom_succ _ k

theorem elapsedAt_le (k : Nat) : elapsedAt k ≤ 2 ^ 63 - 511 := by
  rw [elapsedAt_eq]
  unfold wrap64
  omega

theorem elapsedAt_wraparound : elapsedAt 33831688342692755 = 2 ^ 63 - 511 := by
  rw [elapsedAt_eq]
  decide

/-! ## The loop of the activity -/

theorem sampleActivityLoop_shape (ctx : Context) (id total : Int) (fuel : Nat) :
    ∀ (e : Int) (i : Nat) (r : String × Option CtxError) (tr : List ActEvent),
      sampleActivityLoop ctx id total fuel e i = some (r, tr) →
      ∃ n, n < fuel ∧ (∀ k, k < n → elapsedFrom e k < total ∧ ctx (i + k + 1) = none) ∧
        ((total ≤ elapsedFrom e n ∧ r = (doneMsg id total, none) ∧ tr = iterations n) ∨
         (elapsedFrom e n < total ∧ ∃ err, ctx (i + n + 1) = some err ∧
            r = (cancelledMsg id, some err) ∧
            tr = iterations n ++ (iteration true ++ [ActEvent.logInfo (cancelledMsg id)]))) := by
  induction fuel with
  | zero => intro e i r tr h; simp [sampleActivityLoop] at h
  | succ fuel ih =>
    intro e i r tr h
    unfold sampleActivityLoop at h
    by_cases hlt : e < total
    · simp only [hlt, if_true] at h
      cases hc : ctx (i + 1) with
      | some err =>
        simp only [hc] at h
        injection h with h
        injection h with h1 h2
        refine ⟨0, Nat.succ_pos _, ?_, Or.inr ⟨hlt, err, hc, h1.symm, ?_⟩⟩
        · intro k hk; omega
        · rw [← h2]; rfl
      | none =>
        simp only [hc] at h
        cases hr : sampleActivityLoop ctx id total fuel (wrap64 (e + Second)) (i + 1) with
        | none => simp [hr] at h
        | some res =>
          obtain ⟨r', tr'⟩ := res
          simp only [hr, Option.map_some'] at h
          injection h with h
          injection h with h1 h2
          obtain ⟨n, hn, hpre, hpost⟩ := ih _ _ _ _ hr
          refine ⟨n + 1, Nat.succ_lt_succ hn, ?_, ?_⟩
          · intro k hk
            cases k with
            | zero => exact ⟨hlt, hc⟩
            | succ k =>
              have := hpre k (by omega)
              simp only [elapsedFrom]
              refine ⟨this.1, ?_⟩
              have h3 : i + (k + 1) + 1 = i + 1 + k + 1 := by omega
              rw [h3]; exact this.2
          · have h3 : i + (n + 1) + 1 = i + 1 + n + 1 := by omega
            rw [h3]
            simp only [elapsedFrom]
            rcases hpost with ⟨ha, hb, hc'⟩ | ⟨ha, err, hb, hc', hd⟩
            · refine Or.inl ⟨ha, ?_, ?_⟩
              · rw [← h1]; exact hb
              · rw [← h2, hc']; rfl
            · refine Or.inr ⟨ha, err, hb, ?_, ?_⟩
              · rw [← h1]; exact hc'
              · rw [← h2, hd]; rfl
    · simp only [hlt, if_false] at h
      injection h with h
      injection h with h1 h2
      refine ⟨0, Nat.succ_pos _, ?_, Or.inl ⟨not_lt.mp hlt, h1.symm, ?_⟩⟩
      · intro k hk; omega
      · rw [← h2]; rfl

theorem sampleActivityLoop_returns (ctx : Context) (id total : Int) (n : Nat) :
    ∀ (fuel : Nat) (e : Int) (i : Nat), n < fuel → total ≤ elapsedFrom e n →
      ∃ res, sampleActivityLoop ctx id total fuel e i = some res := by
  induction n with
  | zero =>
    intro fuel e i hf hge
    cases fuel with
    | zero => omega
    | succ fuel =>
      have hnot : ¬ e < total := not_lt.mpr hge
      unfold sampleActivityLoop
      simp only [hnot, if_false]
      exact ⟨_, rfl⟩
  | succ n ih =>
    intro fuel e i hf hge
    cases fuel with
    | zero => omega
    | succ fuel =>
      unfold sampleActivityLoop
      by_cases hlt : e < total
      · simp only [hlt, if_true]
        cases hc : ctx (i + 1) with
        | some err => exact ⟨_, rfl⟩
        | none =>
          obtain ⟨res, hres⟩ := ih fuel (wrap64 (e + Second)) (i + 1) (by omega) hge
          simp only [hres, Option.map_some']
          exact ⟨_, rfl⟩
      · simp only [hlt, if_false]
        exact ⟨_, rfl⟩

theorem sampleActivityLoop_none (ctx : Context) (id total : Int) (fuel : Nat) :
    ∀ (e : Int) (i : Nat), (∀ k, k < fuel → elapsedFrom e k < total ∧ ctx (i + k + 1) = none) →
      sampleActivityLoop ctx id total fuel e i = none := by
  intro e i h
  cases hr : sampleActivityLoop ctx id total fuel e i with
  | none => rfl
  | some res =>
    obtain ⟨r, tr⟩ := res
    obtain ⟨n, hn, _, hpost⟩ := sampleActivityLoop_shape ctx id total fuel e i r tr hr
    have := h n hn
    rcases hpost with ⟨ha, _⟩ | ⟨_, err, hb, _⟩
    · omega
    · rw [this.2] at hb; cases hb

theorem sampleActivityLoop_cancelled (ctx : Context) (id total : Int) (err : CtxError)
    (n : Nat) : ∀ (fuel : Nat) (e : Int) (i : Nat), n < fuel →
      (∀ j, j < n → elapsedFrom e j < total ∧ ctx (i + j + 1) = none) →
      elapsedFrom e n < total → ctx (i + n + 1) = some err →
      sampleActivityLoop ctx id total fuel e i = some ((cancelledMsg id, some err),
        iterations n ++ (iteration true ++ [ActEvent.logInfo (cancelledMsg id)])) := by
  induction n with
  | zero =>
    intro fuel e i hf _ hlt hc
    cases fuel with
    | zero => omega
    | succ fuel =>
      have hlt' : e < total := hlt
      have hc' : ctx (i + 1) = some err := hc
      unfold sampleActivityLoop
      simp only [hlt', if_true, hc']
      rfl
  | succ n ih =>
    intro fuel e i hf hpre hlt hc
    cases fuel with
    | zero => omega
    | succ fuel =>
      have h0 := hpre 0 (Nat.succ_pos _)
      have hlt' : e < total := h0.1
      have hc' : ctx (i + 1) = none := h0.2
      have hrec := ih fuel (wrap64 (e + Second)) (i + 1) (by omega)
        (fun j hj => by
          have := hpre (j + 1) (by omega)
          have h3 : i + (j + 1) + 1 = i + 1 + j + 1 := by omega
          rw [h3] at this
          exact this)
        hlt (by
          have h3 : i + (n + 1) + 1 = i + 1 + n + 1 := by omega
          rw [h3] at hc
          exact hc)
      unfold sampleActivityLoop
      simp only [hlt', if_true, hc', hrec, Option.map_some']
      rfl

theorem sampleActivityLoop_done (ctx : Context) (id total : Int)
    (n : Nat) : ∀ (fuel : Nat) (e : Int) (i : Nat), n < fuel →
      (∀ j, j < n → elapsedFrom e j < total ∧ ctx (i + j + 1) = none) →
      total ≤ elapsedFrom e n →
      sampleActivityLoop ctx id total fuel e i
        = some ((doneMsg id total, none), iterations n) := by
  induction n with
  | zero =>
    intro fuel e i hf _ hge
    cases fuel with
    | zero => omega
    | succ fuel =>
      have hnot : ¬ e < total := not_lt.mpr hge
      unfold sampleActivityLoop
      simp only [hnot, if_false]
      rfl
  | succ n ih =>
    intro fuel e i hf hpre hge
    cases fuel with
    | zero => omega
    | succ fuel =>
      have h0 := hpre 0 (Nat.succ_pos _)
      have hlt' : e < total := h0.1
      have hc' : ctx (i + 1) = none := h0.2
      have hrec := ih fuel (wrap64 (e + Second)) (i + 1) (by omega)
        (fun j hj => by
          have := hpre (j + 1) (by omega)
          have h3 : i + (j + 1) + 1 = i + 1 + j + 1 := by omega
          rw [h3] at this
          exact this)
        hge
      unfold sampleActivityLoop
      simp only [hlt', if_true, hc', hrec, Option.map_some']
      rfl

/-! ## The two messages of the activity -/

theorem digitChar_ne_space (n : Nat) (h : n < 10) : Nat.digitChar n ≠ ' ' := by
  interval_cases n <;> decide

theorem toDigitsCore_no_space (fuel : Nat) : ∀ (n : Nat) (acc : List Char),
    (∀ c ∈ acc, c ≠ ' ') → ∀ c ∈ Nat.toDigitsCore 10 fuel n acc, c ≠ ' ' := by
  induction fuel with
  | zero => intro n acc h; simpa [Nat.toDigitsCore] using h
  | succ fuel ih =>
    intro n acc h
    unfold Nat.toDigitsCore
    have hd : Nat.digitChar (n % 10) ≠ ' ' := digitChar_ne_space _ (Nat.mod_lt _ (by decide))
    have hacc : ∀ c ∈ Nat.digitChar (n % 10) :: acc, c ≠ ' ' := by
      intro c hc
      rcases List.mem_cons.mp hc with rfl | hc
      · exact hd
      · exact h c hc
    by_cases h0 : n / 10 = 0
    · simp only [h0, if_true]; exact hacc
    · simp only [h0, if_false]; exact ih _ _ hacc

theorem natRepr_no_space (n : Nat) : ∀ c ∈ (toString n).data, c ≠ ' ' := by
  show ∀ c ∈ (Nat.repr n).data, c ≠ ' '
  unfold Nat.repr Nat.toDigits
  simp only [List.asString]
  exact toDigitsCore_no_space _ _ _ (by simp)

theorem intToString_no_space (i : Int) : ∀ c ∈ (toString i).data, c ≠ ' ' := by
  cases i with
  | ofNat m => exact natRepr_no_space m
  | negSucc m =>
    show ∀ c ∈ ("-" ++ toString (m + 1)).data, c ≠ ' '
    intro c hc
    rw [String.data_append, List.mem_append] at hc
    rcases hc with hc | hc
    · have : c = '-' := by simpa using hc
      rw [this]; decide
    · exact natRepr_no_space _ c hc

theorem append_sep_inj {α : Type} (c : α) : ∀ (a b x y : List α), c ∉ a → c ∉ b →
    a ++ c :: x = b ++ c :: y → a = b ∧ x = y := by
  intro a
  induction a with
  | nil =>
    intro b x y _ hb h
    cases b with
    | nil => simpa using h
    | cons b0 b =>
      simp only [List.nil_append, List.cons_append, List.cons.injEq] at h
      exact absurd (h.1 ▸ List.mem_cons_self _ _) hb
  | cons a0 a ih =>
    intro b x y ha hb h
    cases b with
    | nil =>
      simp only [List.nil_append, List.cons_append, List.cons.injEq] at h
      exact absurd (h.1 ▸ List.mem_cons_self _ _) ha
    | cons b0 b =>
      simp only [List.cons_append, List.cons.injEq] at h
      have := ih b x y (fun hm => ha (List.mem_cons_of_mem _ hm)) (fun hm => hb (List.mem_cons_of_mem _ hm)) h.2
      exact ⟨by rw [h.1, this.1], this.2⟩

theorem cancelledMsg_ne_doneMsg (i j d : Int) : cancelledMsg i ≠ doneMsg j d := by
  intro h
  have h2 := congrArg String.data h
  simp only [cancelledMsg, doneMsg, String.data_append] at h2
  simp only [List.append_assoc, List.cons_append, List.nil_append, List.cons.injEq,
    true_and] at h2
  have h3 : (toString i).data ++ ' ' :: "is cancelled.".data
      = (toString j).data ++ ' ' :: ("done in ".data ++ ((Duration.String d).data ++ ['.'])) := h2
  have h4 := (append_sep_inj ' ' _ _ _ _ (fun hm => intToString_no_space i _ hm rfl)
    (fun hm => intToString_no_space j _ hm rfl) h3).2
  simp only [List.cons_append, List.cons.injEq] at h4
  exact absurd h4.1 (by decide)

/-! ## Effects of whole iterations -/

theorem sleeps_iterations (n : Nat) : sleeps (iterations n) = n := by
  induction n with
  | zero => rfl
  | succ n ih =>
    have h : sleeps (iterations (n + 1)) = sleeps (iterations n) + 1 := by
      simp [sleeps, iterations, iteration]
    omega

theorem heartbeats_iterations (n : Nat) : heartbeats (iterations n) = n := by
  induction n with
  | zero => rfl
  | succ n ih =>
    have h : heartbeats (iterations (n + 1)) = heartbeats (iterations n) + 1 := by
      simp [heartbeats, iterations, iteration]
    omega

theorem checks_iterations (n : Nat) : checks (iterations n) = n := by
  induction n with
  | zero => rfl
  | succ n ih =>
    have h : checks (iterations (n + 1)) = checks (iterations n) + 1 := by
      simp [checks, iterations, iteration]
    omega

theorem sleeps_append (a b : List ActEvent) : sleeps (a ++ b) = sleeps a + sleeps b := by
  simp [sleeps]

theorem heartbeats_append (a b : List ActEvent) :
    heartbeats (a ++ b) = heartbeats a + heartbeats b := by
  simp [heartbeats]

theorem checks_append (a b : List ActEvent) : checks (a ++ b) = checks a + checks b := by
  simp [checks]

theorem sleptTime_iterations (n : Nat) : sleptTime (iterations n) = n * Second := by
  induction n with
  | zero => simp [iterations, sleptTime]
  | succ n ih =>
    have h : sleptTime (iterations (n + 1)) = Second + sleptTime (iterations n) := by
      simp [iterations, iteration, sleptTime]
    rw [h, ih]
    push_cast
    ring

/-! ## The pacing of the effects -/

theorem paced_nil : Paced [] := by
  intro m
  simp [sleeps, heartbeats]

theorem paced_cancelled (msg : String) : Paced (iteration true ++ [ActEvent.logInfo msg]) := by
  intro m
  match m with
  | 0 => simp [iteration, sleeps, heartbeats]
  | 1 => simp [iteration, sleeps, heartbeats, sleptTime]
  | 2 => simp [iteration, sleeps, heartbeats]
  | 3 => simp [iteration, sleeps, heartbeats]
  | m + 4 => simp [iteration, sleeps, heartbeats]

theorem paced_step (rest : List ActEvent) (h : Paced rest) : Paced (iteration false ++ rest) := by
  intro m
  match m with
  | 0 => simp [iteration, sleeps, heartbeats]
  | 1 => simp [iteration, sleeps, heartbeats, sleptTime]
  | 2 => simp [iteration, sleeps, heartbeats]
  | m + 3 =>
    obtain ⟨h1, h2, h3⟩ := h m
    have hs : sleeps (List.take (m + 3) (iteration false ++ rest))
        = sleeps (List.take m rest) + 1 := by
      simp [iteration, sleeps]
    have hh : heartbeats (List.take (m + 3) (iteration false ++ rest))
        = heartbeats (List.take m rest) + 1 := by
      simp [iteration, heartbeats]
    have ht : sleptTime (List.take (m + 3) (iteration false ++ rest))
        = Second + sleptTime (List.take m rest) := by
      simp [iteration, sleptTime]
    have hg : (iteration false ++ rest)[m + 3]? = rest[m]? := by
      simp [iteration]
    rw [hs, hh, ht, hg]
    refine ⟨by omega, ?_, ?_⟩
    · intro b hb
      obtain ⟨e1, m', e2, e3⟩ := h2 b hb
      refine ⟨by omega, m' + 3, by omega, ?_⟩
      simpa [iteration] using e3
    · intro d hd
      obtain ⟨e1, m', e2, e3⟩ := h3 d hd
      refine ⟨?_, m' + 3, by omega, ?_⟩
      · rw [e1]; push_cast; ring
      · simpa [iteration] using e3

theorem paced_iterations (n : Nat) (tail : List ActEvent) (h : Paced tail) :
    Paced (iterations n ++ tail) := by
  induction n with
  | zero => simpa [iterations] using h
  | succ n ih =>
    have : iterations (n + 1) ++ tail = iteration false ++ (iterations n ++ tail) := by
      simp [iterations]
    rw [this]
    exact paced_step _ ih
/-! ## The workflow -/

/-- C1: in every execution of `SamplePickFirstWorkflow`, whatever the two futures resolve to and
whichever is ready first, each of the two launched futures is awaited by a `Get` of the loop over
`pendingFutures` before the workflow returns, and `cancelHandler` is called before each of these
calls. -/
theorem workflow_drains_every_future (env : Env) (f : FutureId) :
    (∃ b d, WfEvent.executeActivity f b d ∈ (SamplePickFirstWorkflow env).trace) ∧
    WfEvent.drainGet f ∈ (SamplePickFirstWorkflow env).trace ∧
    WfEvent.cancel ∈ (SamplePickFirstWorkflow env).trace ∧
    (SamplePickFirstWorkflow env).trace.indexOf WfEvent.cancel
      < (SamplePickFirstWorkflow env).trace.indexOf (WfEvent.drainGet f) ∧
    (SamplePickFirstWorkflow env).trace.indexOf (WfEvent.drainGet f)
      < (SamplePickFirstWorkflow env).trace.length := by
  refine ⟨?_, ?_, ?_, ?_, ?_⟩
  · cases f
    · exact ⟨0, Second * 2, by simp [SamplePickFirstWorkflow]⟩
    · exact ⟨1, Second * 10, by simp [SamplePickFirstWorkflow]⟩
  · cases f <;> simp [SamplePickFirstWorkflow]
  · simp [SamplePickFirstWorkflow]
  · cases h : env.firstReady <;> cases f <;> simp only [SamplePickFirstWorkflow, h] <;> decide
  · cases h : env.firstReady <;> cases f <;> simp only [SamplePickFirstWorkflow, h] <;> decide

/-- C2: in every execution of `SamplePickFirstWorkflow`, `cancelHandler` is called exactly once,
`selector.Select` is called exactly once, the call of `cancelHandler` comes after `Select` has
returned (and so after the callback's `Get` on the first ready future) and before every `Get` of
the loop over `pendingFutures`; this holds whatever the first ready future resolved to, its error
being dropped. -/
theorem workflow_cancels_exactly_once (env : Env) :
    (SamplePickFirstWorkflow env).trace.count WfEvent.cancel = 1 ∧
    (SamplePickFirstWorkflow env).trace.count WfEvent.select = 1 ∧
    (SamplePickFirstWorkflow env).trace.indexOf (WfEvent.callbackGet env.firstReady)
      < (SamplePickFirstWorkflow env).trace.indexOf WfEvent.select ∧
    (SamplePickFirstWorkflow env).trace.indexOf WfEvent.select
      < (SamplePickFirstWorkflow env).trace.indexOf WfEvent.cancel ∧
    ∀ f, (SamplePickFirstWorkflow env).trace.indexOf WfEvent.cancel
      < (SamplePickFirstWorkflow env).trace.indexOf (WfEvent.drainGet f) := by
  refine ⟨?_, ?_, ?_, ?_, ?_⟩
  · cases h : env.firstReady <;> simp only [SamplePickFirstWorkflow, h] <;> decide
  · cases h : env.firstReady <;> simp only [SamplePickFirstWorkflow, h] <;> decide
  · cases h : env.firstReady <;> simp only [SamplePickFirstWorkflow, h] <;> decide
  · cases h : env.firstReady <;> simp only [SamplePickFirstWorkflow, h] <;> decide
  · intro f
    cases h : env.firstReady <;> cases f <;> simp only [SamplePickFirstWorkflow, h] <;> decide

/-- C3: `SamplePickFirstWorkflow` returns a nil error in every execution, whatever the two
futures resolve to (a result, an error, a cancellation error) and whichever is ready first, and
it does so at the end of its body, after logging `Workflow completed.`. -/
theorem workflow_never_fails (env : Env) :
    (SamplePickFirstWorkflow env).err = none ∧
    (SamplePickFirstWorkflow env).trace.getLast? = some (WfEvent.logInfo "Workflow completed.") := by
  refine ⟨rfl, ?_⟩
  simp [SamplePickFirstWorkflow]

/-! ## The activity -/

/-- C4: if loop iteration `k` (counted from 1) of `sampleActivity` is the first at whose
cancellation check the context is observed done (the loop reaches that iteration, that is its
condition holds on entry to each of the iterations `1` to `k`), then the activity stops at that
check: its effects are exactly `k` sleeps, `k` heartbeats and `k` checks followed by the log of
the message, and it returns `Branch <currentBranchID> is cancelled.` with the error `ctx.Err()`
of the context, which is not nil; the message is not the completion message. -/
theorem sampleActivity_stops_at_first_observed_cancellation (ctx : Context)
    (currentBranchID totalDuration : Int) (k fuel : Nat) (err : CtxError)
    (hk : 1 ≤ k) (hfuel : k ≤ fuel)
    (hreach : ∀ j, j < k → elapsedAt j < totalDuration)
    (hbefore : ∀ j, 1 ≤ j → j < k → ctx j = none)
    (hat : ctx k = some err) :
    ∃ tr, sampleActivity fuel ctx currentBranchID totalDuration
        = some ((cancelledMsg currentBranchID, some err), tr) ∧
      tr = iterations (k - 1)
        ++ (iteration true ++ [ActEvent.logInfo (cancelledMsg currentBranchID)]) ∧
      sleeps tr = k ∧ heartbeats tr = k ∧ checks tr = k ∧
      (some err : Option CtxError) ≠ none ∧
      cancelledMsg currentBranchID ≠ doneMsg currentBranchID totalDuration := by
  obtain ⟨n, rfl⟩ : ∃ n, k = n + 1 := ⟨k - 1, by omega⟩
  have hrun := sampleActivityLoop_cancelled ctx currentBranchID totalDuration err n fuel
    Nanosecond 0 (by omega)
    (fun j hj => ⟨hreach j (by omega), by
      have := hbefore (j + 1) (by omega) (by omega)
      simpa using this⟩)
    (hreach n (by omega)) (by simpa using hat)
  refine ⟨_, hrun, ?_, ?_, ?_, ?_, ?_, cancelledMsg_ne_doneMsg _ _ _⟩
  · simp
  · rw [sleeps_append, sleeps_iterations]; rfl
  · rw [heartbeats_append, heartbeats_iterations]; rfl
  · rw [checks_append, checks_iterations]; rfl
  · simp

theorem sampleActivity_stops_at_first_observed_cancellation_witness :
    ∃ tr, sampleActivity 3 (fun j => if j = 3 then some CtxError.canceled else none) 1
        (10 * Second) = some ((cancelledMsg 1, some CtxError.canceled), tr) ∧
      tr = iterations (3 - 1) ++ (iteration true ++ [ActEvent.logInfo (cancelledMsg 1)]) ∧
      sleeps tr = 3 ∧ heartbeats tr = 3 ∧ checks tr = 3 ∧
      (some CtxError.canceled : Option CtxError) ≠ none ∧
      cancelledMsg 1 ≠ doneMsg 1 (10 * Second) :=
  sampleActivity_stops_at_first_observed_cancellation
    (fun j => if j = 3 then some CtxError.canceled else none) 1 (10 * Second) 3 3
    CtxError.canceled (by decide) (by decide)
    (by intro j hj; interval_cases j <;> decide)
    (by intro j h1 h3; interval_cases j <;> decide)
    (by decide)

/-- C5, as the code has it: for every branch ID, every `totalDuration` and every context, an
execution of `sampleActivity` that returns a non-nil error returns the cancelled message and has
observed the context done at one of its checks, the last one.  If the context is not observed
done at any cancellation check that `sampleActivity` performs, then for a `totalDuration` of at
most `2^63 - 511` nanoseconds (the largest value the wrapping `elapsedDuration` takes)
`sampleActivity` returns, and it returns exactly
`Branch <currentBranchID> done in <totalDuration>.` with a nil error, after a whole number of
uncancelled iterations; and for every larger `totalDuration` it never returns. -/
theorem sampleActivity_completes_when_not_cancelled (ctx : Context)
    (currentBranchID totalDuration : Int) :
    (∀ (fuel : Nat) (msg : String) (err : CtxError) (tr : List ActEvent),
      sampleActivity fuel ctx currentBranchID totalDuration = some ((msg, some err), tr) →
      msg = cancelledMsg currentBranchID ∧ ∃ k, 1 ≤ k ∧ ctx k = some err ∧ checks tr = k) ∧
    ((∀ k, 1 ≤ k → (∀ j, j < k → elapsedAt j < totalDuration) → ctx k = none) →
      (totalDuration ≤ 2 ^ 63 - 511 →
        ∃ n, ∀ fuel, n < fuel → sampleActivity fuel ctx currentBranchID totalDuration
          = some ((doneMsg currentBranchID totalDuration, none), iterations n)) ∧
      (2 ^ 63 - 511 < totalDuration →
        ∀ fuel, sampleActivity fuel ctx currentBranchID totalDuration = none)) := by
  constructor
  · intro fuel msg err tr h
    obtain ⟨n, _, _, hpost⟩ :=
      sampleActivityLoop_shape ctx currentBranchID totalDuration fuel _ _ _ _ h
    rcases hpost with ⟨_, hr, _⟩ | ⟨_, err', hc, hr, htr⟩
    · simp at hr
    · simp only [Prod.mk.injEq, Option.some.injEq] at hr
      refine ⟨hr.1, n + 1, by omega, ?_, ?_⟩
      · rw [hr.2]; simpa using hc
      · rw [htr, checks_append, checks_iterations]; rfl
  · intro hctx
    constructor
    · intro htotal
      have hex : ∃ n, totalDuration ≤ elapsedAt n :=
        ⟨33831688342692755, by rw [elapsedAt_wraparound]; exact htotal⟩
      classical
      refine ⟨Nat.find hex, fun fuel hf => ?_⟩
      have hmin : ∀ j, j < Nat.find hex → elapsedAt j < totalDuration := fun j hj =>
        not_le.mp (Nat.find_min hex hj)
      refine sampleActivityLoop_done ctx currentBranchID totalDuration (Nat.find hex) fuel
        Nanosecond 0 hf (fun j hj => ⟨hmin j hj, ?_⟩) (Nat.find_spec hex)
      have := hctx (j + 1) (by omega) (fun j' hj' => hmin j' (by omega))
      simpa using this
    · intro htotal fuel
      have hall : ∀ j, elapsedAt j < totalDuration := fun j =>
        lt_of_le_of_lt (elapsedAt_le j) htotal
      refine sampleActivityLoop_none ctx currentBranchID totalDuration fuel Nanosecond 0
        (fun k _ => ⟨hall k, ?_⟩)
      have := hctx (k + 1) (by omega) (fun j _ => hall j)
      simpa using this

theorem sampleActivity_completes_when_not_cancelled_witness :
    (cancelledMsg 1 = cancelledMsg 1 ∧
      ∃ k, 1 ≤ k ∧ (fun k => if k = 3 then some CtxError.canceled else none : Context) k
        = some CtxError.canceled ∧
        checks (iterations 2 ++ (iteration true ++ [ActEvent.logInfo (cancelledMsg 1)])) = k) ∧
    (∃ n, ∀ fuel, n < fuel → sampleActivity fuel (fun _ => none) 0 (2 * Second)
        = some ((doneMsg 0 (2 * Second), none), iterations n)) ∧
    (∀ fuel, sampleActivity fuel (fun _ => none) 1 (maxInt64 - 1) = none) :=
  ⟨(sampleActivity_completes_when_not_cancelled
      (fun k => if k = 3 then some CtxError.canceled else none) 1 (10 * Second)).1 3
      (cancelledMsg 1) CtxError.canceled
      (iterations 2 ++ (iteration true ++ [ActEvent.logInfo (cancelledMsg 1)])) (by rfl),
   ((sampleActivity_completes_when_not_cancelled (fun _ => none) 0 (2 * Second)).2
      (fun _ _ _ => rfl)).1 (by decide),
   ((sampleActivity_completes_when_not_cancelled (fun _ => none) 1 (maxInt64 - 1)).2
      (fun _ _ _ => rfl)).2 (by decide)⟩

/-- C5 fails as stated: with a `totalDuration` of `MaxInt64` nanoseconds and a context that is
never observed done, `sampleActivity` never returns (`elapsedDuration` wraps around and stays
below `totalDuration`), so it does not return the completion message. -/
theorem sampleActivity_never_returns_at_maxInt64 :
    (∀ k, (fun _ => none : Context) k = none) ∧
    ¬ ∃ fuel res, sampleActivity fuel (fun _ => none) 0 maxInt64 = some res := by
  refine ⟨fun _ => rfl, ?_⟩
  rintro ⟨fuel, res, h⟩
  have hnone : sampleActivity fuel (fun _ => none) 0 maxInt64 = none := by
    refine sampleActivityLoop_none _ 0 maxInt64 fuel Nanosecond 0 (fun k _ => ⟨?_, rfl⟩)
    have := elapsedAt_le k
    unfold maxInt64
    unfold elapsedAt at this
    omega
  rw [hnone] at h
  cases h

/-- C8: the cancelled message of any branch differs from the completion message of any branch and
duration, and an execution of `sampleActivity` that returns does so either with the cancelled
message of its branch and a non-nil error, or with the completion message of its branch and
duration and a nil error. -/
theorem sampleActivity_cancellation_distinguishable (i j d : Int) (fuel : Nat) (ctx : Context)
    (currentBranchID totalDuration : Int) (msg : String) (err : Option CtxError)
    (tr : List ActEvent)
    (hrun : sampleActivity fuel ctx currentBranchID totalDuration = some ((msg, err), tr)) :
    cancelledMsg i ≠ doneMsg j d ∧
    ((msg = cancelledMsg currentBranchID ∧ err ≠ none ∧
        msg ≠ doneMsg currentBranchID totalDuration) ∨
     (msg = doneMsg currentBranchID totalDuration ∧ err = none ∧
        msg ≠ cancelledMsg currentBranchID)) := by
  refine ⟨cancelledMsg_ne_doneMsg i j d, ?_⟩
  obtain ⟨n, _, _, hpost⟩ :=
    sampleActivityLoop_shape ctx currentBranchID totalDuration fuel _ _ _ _ hrun
  rcases hpost with ⟨_, hr, _⟩ | ⟨_, e, _, hr, _⟩
  · simp only [Prod.mk.injEq] at hr
    rw [hr.1, hr.2]
    exact Or.inr ⟨rfl, rfl, fun h => cancelledMsg_ne_doneMsg _ _ _ h.symm⟩
  · simp only [Prod.mk.injEq] at hr
    rw [hr.1, hr.2]
    exact Or.inl ⟨rfl, by simp, cancelledMsg_ne_doneMsg _ _ _⟩

theorem sampleActivity_cancellation_distinguishable_witness :
    cancelledMsg 0 ≠ doneMsg 0 0 ∧
    (("Branch 1 is cancelled." = cancelledMsg 1 ∧ some CtxError.canceled ≠ none ∧
        "Branch 1 is cancelled." ≠ doneMsg 1 (10 * Second)) ∨
     ("Branch 1 is cancelled." = doneMsg 1 (10 * Second) ∧ some CtxError.canceled = none ∧
        "Branch 1 is cancelled." ≠ cancelledMsg 1)) :=
  sampleActivity_cancellation_distinguishable 0 0 0 1 (fun _ => some CtxError.canceled) 1
    (10 * Second) "Branch 1 is cancelled." (some CtxError.canceled)
    [ActEvent.sleep Second, ActEvent.heartbeat "status-report-to-workflow",
      ActEvent.check true, ActEvent.logInfo "Branch 1 is cancelled."] (by rfl)

/-- C9, as the code has it: when cancellation is never observed and `totalDuration` is at most
`9223372036000000001` nanoseconds (the largest value `1ns + k * 1s` that fits in 64 bits),
`sampleActivity` runs exactly `max(0, ceil((totalDuration - 1ns) / 1s))` loop iterations and
returns the completion message: that many sleeps, heartbeats and checks; `n` iterations for a
`totalDuration` of `n` whole seconds with `n ≥ 1`; and no iteration for a `totalDuration` of at
most `1ns`, in which case the completion message is returned at once, without any effect, also
under a context that is already cancelled. -/
theorem sampleActivity_iterations_when_not_cancelled (ctx : Context)
    (currentBranchID totalDuration : Int) (fuel : Nat)
    (hctx : ∀ k, ctx k = none)
    (htotal : totalDuration ≤ 9223372036000000001)
    (hfuel : (max 0 (ceilDiv (totalDuration - Nanosecond) Second)).toNat < fuel) :
    sampleActivity fuel ctx currentBranchID totalDuration
      = some ((doneMsg currentBranchID totalDuration, none),
          iterations (max 0 (ceilDiv (totalDuration - Nanosecond) Second)).toNat) ∧
    sleeps (iterations (max 0 (ceilDiv (totalDuration - Nanosecond) Second)).toNat)
      = (max 0 (ceilDiv (totalDuration - Nanosecond) Second)).toNat ∧
    heartbeats (iterations (max 0 (ceilDiv (totalDuration - Nanosecond) Second)).toNat)
      = (max 0 (ceilDiv (totalDuration - Nanosecond) Second)).toNat ∧
    checks (iterations (max 0 (ceilDiv (totalDuration - Nanosecond) Second)).toNat)
      = (max 0 (ceilDiv (totalDuration - Nanosecond) Second)).toNat ∧
    sleptTime (iterations (max 0 (ceilDiv (totalDuration - Nanosecond) Second)).toNat)
      = (max 0 (ceilDiv (totalDuration - Nanosecond) Second)).toNat * Second ∧
    (∀ n : Nat, 1 ≤ n → totalDuration = n * Second →
      (max 0 (ceilDiv (totalDuration - Nanosecond) Second)).toNat = n) ∧
    (totalDuration ≤ Nanosecond →
      (max 0 (ceilDiv (totalDuration - Nanosecond) Second)).toNat = 0 ∧
      ∀ ctx' : Context, sampleActivity fuel ctx' currentBranchID totalDuration
        = some ((doneMsg currentBranchID totalDuration, none), [])) := by
  have hS : Second = 1000000000 := by decide
  have hN : Nanosecond = 1 := rfl
  refine ⟨?_, sleeps_iterations _, heartbeats_iterations _, checks_iterations _,
    sleptTime_iterations _, ?_, ?_⟩
  · refine sampleActivityLoop_done ctx currentBranchID totalDuration _ fuel Nanosecond 0 hfuel
      (fun j hj => ⟨?_, hctx _⟩) ?_
    · show elapsedAt j < totalDuration
      rw [elapsedAt_eq]
      rw [hS, hN] at hj
      unfold wrap64
      unfold ceilDiv at hj
      omega
    · show totalDuration ≤ elapsedAt _
      rw [elapsedAt_eq, hS, hN]
      unfold wrap64 ceilDiv
      omega
  · intro n hn htot
    rw [hS, hN]
    rw [hS] at htot
    unfold ceilDiv
    omega
  · intro hle
    have h0 : (max 0 (ceilDiv (totalDuration - Nanosecond) Second)).toNat = 0 := by
      rw [hS, hN]
      rw [hN] at hle
      unfold ceilDiv
      omega
    refine ⟨h0, fun ctx' => ?_⟩
    rw [h0] at hfuel
    exact sampleActivityLoop_done ctx' currentBranchID totalDuration 0 fuel Nanosecond 0 hfuel
      (fun j hj => by omega) hle

theorem sampleActivity_iterations_when_not_cancelled_witness :
    sampleActivity 11 (fun _ => none) 1 (10 * Second)
      = some ((doneMsg 1 (10 * Second), none),
          iterations (max 0 (ceilDiv (10 * Second - Nanosecond) Second)).toNat) ∧
    sleeps (iterations (max 0 (ceilDiv (10 * Second - Nanosecond) Second)).toNat)
      = (max 0 (ceilDiv (10 * Second - Nanosecond) Second)).toNat ∧
    heartbeats (iterations (max 0 (ceilDiv (10 * Second - Nanosecond) Second)).toNat)
      = (max 0 (ceilDiv (10 * Second - Nanosecond) Second)).toNat ∧
    checks (iterations (max 0 (ceilDiv (10 * Second - Nanosecond) Second)).toNat)
      = (max 0 (ceilDiv (10 * Second - Nanosecond) Second)).toNat ∧
    sleptTime (iterations (max 0 (ceilDiv (10 * Second - Nanosecond) Second)).toNat)
      = (max 0 (ceilDiv (10 * Second - Nanosecond) Second)).toNat * Second ∧
    (∀ n : Nat, 1 ≤ n → 10 * Second = n * Second →
      (max 0 (ceilDiv (10 * Second - Nanosecond) Second)).toNat = n) ∧
    (10 * Second ≤ Nanosecond →
      (max 0 (ceilDiv (10 * Second - Nanosecond) Second)).toNat = 0 ∧
      ∀ ctx' : Context, sampleActivity 11 ctx' 1 (10 * Second)
        = some ((doneMsg 1 (10 * Second), none), [])) :=
  sampleActivity_iterations_when_not_cancelled (fun _ => none) 1 (10 * Second) 11
    (fun _ => rfl) (by decide) (by decide)

/-- C9 fails as stated: with a `totalDuration` of `9223372036000000002` nanoseconds and a context
that is never observed done, the loop has not ended after
`max(0, ceil((totalDuration - 1ns) / 1s)) = 9223372037` iterations (the last addition overflows
and `elapsedDuration` becomes negative), so no execution returns after exactly that many
iterations. -/
theorem sampleActivity_iterations_overflow :
    (max 0 (ceilDiv (9223372036000000002 - Nanosecond) Second)).toNat = 9223372037 ∧
    elapsedAt 9223372037 < 9223372036000000002 ∧
    ¬ ∃ fuel r tr, sampleActivity fuel (fun _ => none) 0 9223372036000000002 = some (r, tr) ∧
      sleeps tr = (max 0 (ceilDiv (9223372036000000002 - Nanosecond) Second)).toNat := by
  have hN : (max 0 (ceilDiv (9223372036000000002 - Nanosecond) Second)).toNat = 9223372037 := by
    decide
  have hlt : elapsedAt 9223372037 < 9223372036000000002 := by
    rw [elapsedAt_eq]
    decide
  refine ⟨hN, hlt, ?_⟩
  rintro ⟨fuel, r, tr, hrun, hs⟩
  rw [hN] at hs
  obtain ⟨n, _, _, hpost⟩ := sampleActivityLoop_shape _ _ _ fuel _ _ _ _ hrun
  rcases hpost with ⟨hge, _, htr⟩ | ⟨_, err, hc, _⟩
  · rw [htr, sleeps_iterations] at hs
    rw [hs] at hge
    have : elapsedAt 9223372037 = elapsedFrom Nanosecond 9223372037 := rfl
    omega
  · cases hc

/-- C10, as the code has it: for every `totalDuration` of at most `MaxInt64` nanoseconds minus
one second, whenever the loop condition of `sampleActivity` holds the addition
`elapsedDuration += time.Second` does not overflow and strictly increases `elapsedDuration`, and
`sampleActivity` returns after at most `max(0, ceil(totalDuration / 1s))` iterations, whether or
not cancellation is observed. -/
theorem sampleActivity_terminates (ctx : Context) (currentBranchID totalDuration : Int)
    (fuel : Nat) (htotal : totalDuration ≤ maxInt64 - Second)
    (hfuel : (max 0 (ceilDiv totalDuration Second)).toNat < fuel) :
    (∀ k, elapsedAt k < totalDuration →
      elapsedAt k + Second ≤ maxInt64 ∧ elapsedAt (k + 1) = elapsedAt k + Second ∧
      elapsedAt k < elapsedAt (k + 1)) ∧
    ∃ r tr, sampleActivity fuel ctx currentBranchID totalDuration = some (r, tr) ∧
      sleeps tr ≤ (max 0 (ceilDiv totalDuration Second)).toNat ∧
      checks tr ≤ (max 0 (ceilDiv totalDuration Second)).toNat := by
  have hS : Second = 1000000000 := by decide
  constructor
  · intro k hk
    have hlo : -(2 ^ 63) ≤ elapsedAt k := by
      rw [elapsedAt_eq]
      unfold wrap64
      omega
    have htot : totalDuration ≤ 2 ^ 63 - 1 - 1000000000 := by
      unfold maxInt64 at htotal
      rw [hS] at htotal
      exact htotal
    have hw : wrap64 (elapsedAt k + Second) = elapsedAt k + Second := by
      rw [hS]
      unfold wrap64
      omega
    rw [elapsedAt_succ, hw]
    refine ⟨?_, rfl, ?_⟩
    · unfold maxInt64
      rw [hS]
      omega
    · rw [hS]
      omega
  · have hge : totalDuration ≤ elapsedAt (max 0 (ceilDiv totalDuration Second)).toNat := by
      rw [elapsedAt_eq, hS]
      rw [hS] at htotal
      unfold maxInt64 at htotal
      unfold wrap64 ceilDiv
      omega
    obtain ⟨⟨r, tr⟩, hres⟩ := sampleActivityLoop_returns ctx currentBranchID totalDuration _
      fuel Nanosecond 0 hfuel hge
    refine ⟨r, tr, hres, ?_⟩
    obtain ⟨n, _, hpre, hpost⟩ := sampleActivityLoop_shape _ _ _ fuel _ _ _ _ hres
    have hn : n ≤ (max 0 (ceilDiv totalDuration Second)).toNat := by
      by_contra hcon
      have := (hpre _ (not_le.mp hcon)).1
      have h2 : elapsedAt (max 0 (ceilDiv totalDuration Second)).toNat
        = elapsedFrom Nanosecond (max 0 (ceilDiv totalDuration Second)).toNat := rfl
      omega
    rcases hpost with ⟨_, _, htr⟩ | ⟨hlt, err, _, _, htr⟩
    · rw [htr, sleeps_iterations, checks_iterations]
      exact ⟨hn, hn⟩
    · have hne : n ≠ (max 0 (ceilDiv totalDuration Second)).toNat := by
        intro heq
        rw [heq] at hlt
        have h2 : elapsedAt (max 0 (ceilDiv totalDuration Second)).toNat
          = elapsedFrom Nanosecond (max 0 (ceilDiv totalDuration Second)).toNat := rfl
        omega
      have h1 : sleeps tr = n + 1 := by
        rw [htr, sleeps_append, sleeps_iterations]; rfl
      have h2 : checks tr = n + 1 := by
        rw [htr, checks_append, checks_iterations]; rfl
      omega

theorem sampleActivity_terminates_witness :
    (∀ k, elapsedAt k < 10 * Second →
      elapsedAt k + Second ≤ maxInt64 ∧ elapsedAt (k + 1) = elapsedAt k + Second ∧
      elapsedAt k < elapsedAt (k + 1)) ∧
    ∃ r tr, sampleActivity 11 (fun k => if k = 4 then some CtxError.canceled else none) 1
        (10 * Second) = some (r, tr) ∧
      sleeps tr ≤ (max 0 (ceilDiv (10 * Second) Second)).toNat ∧
      checks tr ≤ (max 0 (ceilDiv (10 * Second) Second)).toNat :=
  sampleActivity_terminates (fun k => if k = 4 then some CtxError.canceled else none) 1
    (10 * Second) 11 (by decide) (by decide)

/-- C10 fails as stated: a `totalDuration` of minus two seconds is below `MaxInt64` minus one
second, `sampleActivity` returns after zero iterations, and `ceil(totalDuration / 1s)` is `-2`:
the number of iterations is not at most `ceil(totalDuration / 1s)`. -/
theorem sampleActivity_negative_duration_bound :
    -2 * Second ≤ maxInt64 - Second ∧
    sampleActivity 1 (fun _ => none) 0 (-2 * Second)
      = some ((doneMsg 0 (-2 * Second), none), []) ∧
    ceilDiv (-2 * Second) Second = -2 ∧
    ¬ ((sleeps ([] : List ActEvent) : Int) ≤ ceilDiv (-2 * Second) Second) := by
  refine ⟨by decide, by rfl, by decide, by decide⟩

/-- C7, as the code has it: the effects of an execution of `sampleActivity` that returns are a
sequence of loop iterations, each exactly one sleep of one second, then one heartbeat, then one
cancellation check, followed by the log of the cancelled message when the last check observed
cancellation.  At return the numbers of sleeps, heartbeats and checks are equal; at every point
the number of heartbeats is the number of completed sleeps or one less, the two being equal at
every cancellation check; every check directly follows a heartbeat; every heartbeat directly
follows a sleep of one second, one second of sleep per heartbeat has been slept by then, and
exactly one second of sleep separates a heartbeat from the next one. -/
theorem sampleActivity_iteration_order (fuel : Nat) (ctx : Context)
    (currentBranchID totalDuration : Int) (msg : String) (err : Option CtxError)
    (tr : List ActEvent)
    (hrun : sampleActivity fuel ctx currentBranchID totalDuration = some ((msg, err), tr)) :
    (∃ n, tr = iterations n ∨
      tr = iterations n ++ (iteration true ++ [ActEvent.logInfo (cancelledMsg currentBranchID)])) ∧
    sleeps tr = heartbeats tr ∧ heartbeats tr = checks tr ∧
    ∀ m : Nat,
      (heartbeats (tr.take m) ≤ sleeps (tr.take m) ∧
        sleeps (tr.take m) ≤ heartbeats (tr.take m) + 1) ∧
      (∀ b, tr[m]? = some (ActEvent.check b) →
        sleeps (tr.take m) = heartbeats (tr.take m) ∧
        ∃ m', m = m' + 1 ∧ tr[m']? = some (ActEvent.heartbeat "status-report-to-workflow")) ∧
      (∀ d, tr[m]? = some (ActEvent.heartbeat d) →
        sleptTime (tr.take m) = (heartbeats (tr.take m) + 1) * Second ∧
        ∃ m', m = m' + 1 ∧ tr[m']? = some (ActEvent.sleep Second)) ∧
      (∀ m₂ d₁ d₂, tr[m]? = some (ActEvent.heartbeat d₁) →
        tr[m₂]? = some (ActEvent.heartbeat d₂) →
        heartbeats (tr.take m₂) = heartbeats (tr.take m) + 1 →
        sleptTime (tr.take m₂) = sleptTime (tr.take m) + Second) := by
  have hpaced : Paced tr := by
    obtain ⟨n, _, _, hpost⟩ :=
      sampleActivityLoop_shape ctx currentBranchID totalDuration fuel _ _ _ _ hrun
    rcases hpost with ⟨_, _, htr⟩ | ⟨_, e, _, _, htr⟩
    · have := paced_iterations n [] paced_nil
      rw [List.append_nil, ← htr] at this
      exact this
    · have := paced_iterations n _ (paced_cancelled (cancelledMsg currentBranchID))
      rw [← htr] at this
      exact this
  have hall : ∀ m : Nat, _ := fun m =>
    (⟨(hpaced m).1, (hpaced m).2.1, (hpaced m).2.2, fun m₂ d₁ d₂ h1 h2 hcount => by
      rw [((hpaced m₂).2.2 d₂ h2).1, ((hpaced m).2.2 d₁ h1).1, hcount]
      push_cast
      ring⟩ :
      (heartbeats (tr.take m) ≤ sleeps (tr.take m) ∧
        sleeps (tr.take m) ≤ heartbeats (tr.take m) + 1) ∧
      (∀ b, tr[m]? = some (ActEvent.check b) →
        sleeps (tr.take m) = heartbeats (tr.take m) ∧
        ∃ m', m = m' + 1 ∧ tr[m']? = some (ActEvent.heartbeat "status-report-to-workflow")) ∧
      (∀ d, tr[m]? = some (ActEvent.heartbeat d) →
        sleptTime (tr.take m) = (heartbeats (tr.take m) + 1) * Second ∧
        ∃ m', m = m' + 1 ∧ tr[m']? = some (ActEvent.sleep Second)) ∧
      (∀ m₂ d₁ d₂, tr[m]? = some (ActEvent.heartbeat d₁) →
        tr[m₂]? = some (ActEvent.heartbeat d₂) →
        heartbeats (tr.take m₂) = heartbeats (tr.take m) + 1 →
        sleptTime (tr.take m₂) = sleptTime (tr.take m) + Second))
  obtain ⟨n, _, _, hpost⟩ :=
    sampleActivityLoop_shape ctx currentBranchID totalDuration fuel _ _ _ _ hrun
  rcases hpost with ⟨_, _, htr⟩ | ⟨_, e, _, _, htr⟩
  · refine ⟨⟨n, Or.inl htr⟩, ?_, ?_, hall⟩
    · rw [htr, sleeps_iterations, heartbeats_iterations]
    · rw [htr, heartbeats_iterations, checks_iterations]
  · refine ⟨⟨n, Or.inr htr⟩, ?_, ?_, hall⟩
    · rw [htr, sleeps_append, heartbeats_append, sleeps_iterations, heartbeats_iterations]
      rfl
    · rw [htr, heartbeats_append, checks_append, heartbeats_iterations, checks_iterations]
      rfl

theorem sampleActivity_iteration_order_witness :
    (∃ n, iterations 2 = iterations n ∨
      iterations 2 = iterations n ++ (iteration true ++ [ActEvent.logInfo (cancelledMsg 0)])) ∧
    sleeps (iterations 2) = heartbeats (iterations 2) ∧
    heartbeats (iterations 2) = checks (iterations 2) ∧
    ∀ m : Nat,
      (heartbeats ((iterations 2).take m) ≤ sleeps ((iterations 2).take m) ∧
        sleeps ((iterations 2).take m) ≤ heartbeats ((iterations 2).take m) + 1) ∧
      (∀ b, (iterations 2)[m]? = some (ActEvent.check b) →
        sleeps ((iterations 2).take m) = heartbeats ((iterations 2).take m) ∧
        ∃ m', m = m' + 1 ∧
          (iterations 2)[m']? = some (ActEvent.heartbeat "status-report-to-workflow")) ∧
      (∀ d, (iterations 2)[m]? = some (ActEvent.heartbeat d) →
        sleptTime ((iterations 2).take m) = (heartbeats ((iterations 2).take m) + 1) * Second ∧
        ∃ m', m = m' + 1 ∧ (iterations 2)[m']? = some (ActEvent.sleep Second)) ∧
      (∀ m₂ d₁ d₂, (iterations 2)[m]? = some (ActEvent.heartbeat d₁) →
        (iterations 2)[m₂]? = some (ActEvent.heartbeat d₂) →
        heartbeats ((iterations 2).take m₂) = heartbeats ((iterations 2).take m) + 1 →
        sleptTime ((iterations 2).take m₂) = sleptTime ((iterations 2).take m) + Second) :=
  sampleActivity_iteration_order 3 (fun _ => none) 0 (2 * Second) (doneMsg 0 (2 * Second)) none
    (iterations 2) (by rfl)

/-- C7 fails as stated: in the execution of `sampleActivity` for two seconds under a context
that is never cancelled, after the first effect (the first sleep has completed, its heartbeat
is not yet recorded) one sleep has completed and no heartbeat is recorded. -/
theorem sampleActivity_heartbeat_lags_sleep :
    ∃ r tr, sampleActivity 3 (fun _ => none) 0 (2 * Second) = some (r, tr) ∧
      tr.take 1 = [ActEvent.sleep Second] ∧
      sleeps (tr.take 1) = 1 ∧ heartbeats (tr.take 1) = 0 :=
  ⟨_, _, rfl, rfl, by decide, by decide⟩

/-! ## The two branches raced by the workflow -/

theorem branch1_cancelled_within_three (fuel : Nat) (ctx : Context) (hfuel : 3 ≤ fuel)
    (h3 : ctx 3 ≠ none) :
    ∃ e tr, sampleActivity fuel ctx 1 (Second * 10) = some ((cancelledMsg 1, some e), tr) ∧
      checks tr ≤ 3 ∧ sleeps tr ≤ 3 ∧ ActEvent.check true ∈ tr := by
  have hlt : ∀ j, j < 3 → elapsedFrom Nanosecond j < Second * 10 := by
    intro j hj
    interval_cases j <;> decide
  have key : ∀ n e, n < 3 → (∀ j, j < n → ctx (0 + j + 1) = none) → ctx (0 + n + 1) = some e →
      ∃ e tr, sampleActivity fuel ctx 1 (Second * 10) = some ((cancelledMsg 1, some e), tr) ∧
        checks tr ≤ 3 ∧ sleeps tr ≤ 3 ∧ ActEvent.check true ∈ tr := by
    intro n e hn hpre hc
    refine ⟨e, _, sampleActivityLoop_cancelled ctx 1 (Second * 10) e n fuel Nanosecond 0
      (by omega) (fun j hj => ⟨hlt j (by omega), hpre j hj⟩) (hlt n hn) hc, ?_, ?_, ?_⟩
    · rw [checks_append, checks_iterations]
      have : checks (iteration true ++ [ActEvent.logInfo (cancelledMsg 1)]) = 1 := rfl
      omega
    · rw [sleeps_append, sleeps_iterations]
      have : sleeps (iteration true ++ [ActEvent.logInfo (cancelledMsg 1)]) = 1 := rfl
      omega
    · simp [iteration]
  cases h1 : ctx 1 with
  | some e => exact key 0 e (by omega) (fun j hj => by omega) (by simpa using h1)
  | none =>
    cases h2 : ctx 2 with
    | some e =>
      refine key 1 e (by omega) (fun j hj => ?_) (by simpa using h2)
      interval_cases j
      simpa using h1
    | none =>
      cases h3' : ctx 3 with
      | some e =>
        refine key 2 e (by omega) (fun j hj => ?_) (by simpa using h3')
        interval_cases j
        · simpa using h1
        · simpa using h2
      | none => exact absurd h3' h3

theorem sleptTime_append (a b : List ActEvent) :
    sleptTime (a ++ b) = sleptTime a + sleptTime b := by
  induction a with
  | nil => simp [sleptTime]
  | cons e a ih =>
    cases e <;> simp [sleptTime, ih]
    ring

/-- An execution with enough fuel either completes after the `N` iterations its duration asks
for, no check having observed cancellation, or is cancelled at an earlier or equal check. -/
theorem sampleActivity_run_cases (c : Context) (id total : Int) (N fuel : Nat)
    (hN : total ≤ elapsedAt N) (hlt : ∀ j, j < N → elapsedAt j < total) (hfuel : N < fuel) :
    (sampleActivity fuel c id total = some ((doneMsg id total, none), iterations N) ∧
      returnTime (sampleActivity fuel c id total) = N * Second) ∨
    (∃ n err, n < N ∧ c (n + 1) = some err ∧
      sampleActivity fuel c id total = some ((cancelledMsg id, some err),
        iterations n ++ (iteration true ++ [ActEvent.logInfo (cancelledMsg id)])) ∧
      returnTime (sampleActivity fuel c id total) = ((n + 1 : Nat) : Int) * Second) := by
  obtain ⟨⟨r, tr⟩, hres⟩ := sampleActivityLoop_returns c id total N fuel Nanosecond 0 hfuel hN
  have hres' : sampleActivity fuel c id total = some (r, tr) := hres
  obtain ⟨n, _, hpre, hpost⟩ := sampleActivityLoop_shape c id total fuel _ _ _ _ hres
  have hnN : n ≤ N := by
    by_contra hcon
    have h1 := (hpre N (not_le.mp hcon)).1
    have h2 : elapsedAt N = elapsedFrom Nanosecond N := rfl
    omega
  rcases hpost with ⟨hge, hr, htr⟩ | ⟨hl, err, hc, hr, htr⟩
  · have hn : n = N := by
      by_contra hne
      have h1 := hlt n (by omega)
      have h2 : elapsedAt n = elapsedFrom Nanosecond n := rfl
      omega
    left
    rw [hres', hr, htr, hn]
    exact ⟨rfl, sleptTime_iterations N⟩
  · have hn : n < N := by
      by_contra hne
      have hn' : n = N := by omega
      rw [hn'] at hl
      have h2 : elapsedAt N = elapsedFrom Nanosecond N := rfl
      omega
    right
    refine ⟨n, err, hn, by simpa using hc, ?_, ?_⟩
    · rw [hres', hr, htr]
    · rw [hres', htr]
      show sleptTime (iterations n ++ (iteration true ++ [ActEvent.logInfo (cancelledMsg id)]))
        = ((n + 1 : Nat) : Int) * Second
      rw [sleptTime_append, sleptTime_iterations]
      have : sleptTime (iteration true ++ [ActEvent.logInfo (cancelledMsg id)]) = Second := by
        simp [iteration, sleptTime]
      rw [this]
      push_cast
      ring

/-- C6: the two branches of the workflow, branch 0 for two seconds and branch 1 for ten, started
together.  The cancellation signal becomes set when the workflow calls `cancelHandler()`, at the
time the future that `Select` finds ready first has resolved: that future's activity observes it
at none of its checks up to that time, no activity observes it at a check before that time, every
check after that time observes it.  Each future holds what its activity returned, and the future
`Select` finds ready first resolved no later than the other.  Then the signal becomes set at the
moment branch 0 returns, two seconds after the start; branch 0 returns `Branch 0 done in 2s.`
with a nil error after exactly two iterations of one second, without observing cancellation; it
is the winner and `firstResponse` is `Branch 0 done in 2s.`; branch 1 observes the signal at its
third check at the latest and returns `Branch 1 is cancelled.` with a non-nil error after at most
three of the ten iterations it needs to finish when it is not cancelled. -/
theorem pickFirst_two_branches (env : Env) (ctx : FutureId → Context) (fuel : Nat)
    (hfuel : 11 ≤ fuel)
    (hwinner : ∀ k, checkTime k ≤ cancelTime fuel ctx env → ctx env.firstReady k = none)
    (hquiet : ∀ f k, checkTime k < cancelTime fuel ctx env → ctx f k = none)
    (hseen : ∀ f k, cancelTime fuel ctx env < checkTime k → ctx f k ≠ none)
    (hout : ∀ f r tr, branchRun fuel ctx f = some (r, tr) → env.outcome f = futureOf r)
    (hsel : ∀ f, returnTime (branchRun fuel ctx env.firstReady)
      ≤ returnTime (branchRun fuel ctx f)) :
    cancelTime fuel ctx env = returnTime (branchRun fuel ctx FutureId.f1) ∧
    cancelTime fuel ctx env = 2 * Second ∧
    branchRun fuel ctx FutureId.f1 = some (("Branch 0 done in 2s.", none), iterations 2) ∧
    sleeps (iterations 2) = 2 ∧ sleptTime (iterations 2) = 2 * Second ∧
    ActEvent.check true ∉ iterations 2 ∧
    env.firstReady = FutureId.f1 ∧
    (SamplePickFirstWorkflow env).firstResponse = "Branch 0 done in 2s." ∧
    (∃ e tr, branchRun fuel ctx FutureId.f2 = some (("Branch 1 is cancelled.", some e), tr) ∧
      checks tr ≤ 3 ∧ sleeps tr ≤ 3 ∧ ActEvent.check true ∈ tr) ∧
    sampleActivity 11 (fun _ => none) 1 (Second * 10)
      = some (("Branch 1 done in 10s.", none), iterations 10) := by
  have hS : Second = 1000000000 := by decide
  have hct : ∀ k : Nat, checkTime k = k * 1000000000 := fun k => by
    unfold checkTime
    rw [hS]
  -- the two executions, whatever the contexts
  have c0 := sampleActivity_run_cases (ctx FutureId.f1) 0 (Second * 2) 2 fuel (by decide)
    (fun j hj => by interval_cases j <;> decide) (by omega)
  have c1 := sampleActivity_run_cases (ctx FutureId.f2) 1 (Second * 10) 10 fuel (by decide)
    (fun j hj => by interval_cases j <;> decide) (by omega)
  have e0 : branchRun fuel ctx FutureId.f1
    = sampleActivity fuel (ctx FutureId.f1) 0 (Second * 2) := rfl
  have e1 : branchRun fuel ctx FutureId.f2
    = sampleActivity fuel (ctx FutureId.f2) 1 (Second * 10) := rfl
  -- the future found ready first is that of branch 0
  have hwin : env.firstReady = FutureId.f1 := by
    cases hf : env.firstReady with
    | f1 => rfl
    | f2 =>
      exfalso
      have hT : cancelTime fuel ctx env
        = returnTime (sampleActivity fuel (ctx FutureId.f2) 1 (Second * 10)) := by
        unfold cancelTime
        rw [hf, e1]
      rw [hf] at hwinner hsel
      rcases c1 with ⟨_, ht1⟩ | ⟨n, err, _, hc, _, ht1⟩
      · -- branch 1 ran to its end: the signal is set after ten seconds
        rw [ht1] at hT
        have hq : ∀ j, j < 2 → ctx FutureId.f1 (0 + j + 1) = none := fun j hj =>
          hquiet FutureId.f1 _ (by rw [hT, hct, hS]; push_cast; omega)
        have hrun0 := sampleActivityLoop_done (ctx FutureId.f1) 0 (Second * 2) 2 fuel
          Nanosecond 0 (by omega)
          (fun j hj => ⟨by interval_cases j <;> decide, hq j hj⟩) (by decide)
        have hsel0 := hsel FutureId.f1
        rw [e1, ht1, e0] at hsel0
        have hrt : returnTime (sampleActivity fuel (ctx FutureId.f1) 0 (Second * 2))
          = sleptTime (iterations 2) := by
          unfold sampleActivity
          rw [hrun0]
          rfl
        rw [hrt, sleptTime_iterations, hS] at hsel0
        omega
      · -- branch 1 was cancelled at a check no later than its return
        rw [ht1] at hT
        have := hwinner (n + 1) (by rw [hT, hct, hS])
        rw [this] at hc
        cases hc
  have hT : cancelTime fuel ctx env
      = returnTime (sampleActivity fuel (ctx FutureId.f1) 0 (Second * 2)) := by
    unfold cancelTime
    rw [hwin, e0]
  rw [hwin] at hwinner
  -- branch 0 completes after two iterations
  have hb0 : sampleActivity fuel (ctx FutureId.f1) 0 (Second * 2)
      = some ((doneMsg 0 (Second * 2), none), iterations 2) ∧
      returnTime (sampleActivity fuel (ctx FutureId.f1) 0 (Second * 2)) = (2 : Nat) * Second := by
    rcases c0 with h | ⟨n, err, _, hc, _, ht0⟩
    · exact h
    · exfalso
      rw [ht0] at hT
      have := hwinner (n + 1) (by rw [hT, hct, hS])
      rw [this] at hc
      cases hc
  have hT2 : cancelTime fuel ctx env = 2 * Second := by
    rw [hT, hb0.2]
    rfl
  have hmsg : doneMsg 0 (Second * 2) = "Branch 0 done in 2s." := by decide
  have hrun0 : branchRun fuel ctx FutureId.f1
      = some (("Branch 0 done in 2s.", none), iterations 2) := by
    rw [e0, hb0.1, hmsg]
  have hb1 : ∃ e tr, branchRun fuel ctx FutureId.f2
      = some (("Branch 1 is cancelled.", some e), tr) ∧
      checks tr ≤ 3 ∧ sleeps tr ≤ 3 ∧ ActEvent.check true ∈ tr :=
    branch1_cancelled_within_three fuel (ctx FutureId.f2) (by omega)
      (hseen FutureId.f2 3 (by rw [hT2, hct, hS]; decide))
  refine ⟨by rw [hT, e0], hT2, hrun0, by decide, by decide, by decide, hwin, ?_, hb1, by rfl⟩
  have ho := hout FutureId.f1 _ _ hrun0
  simp only [SamplePickFirstWorkflow, hwin, ho]
  rfl

theorem pickFirst_two_branches_witness :
    cancelTime 11 (fun _ k => if 3 ≤ k then some CtxError.canceled else none)
      (Env.mk (fun f =>
        match f with
        | FutureId.f1 => futureOf ("Branch 0 done in 2s.", none)
        | FutureId.f2 => futureOf ("Branch 1 is cancelled.", some CtxError.canceled))
      FutureId.f1)
      = returnTime (branchRun 11 (fun _ k => if 3 ≤ k then some CtxError.canceled else none)
          FutureId.f1) ∧
    cancelTime 11 (fun _ k => if 3 ≤ k then some CtxError.canceled else none)
      (Env.mk (fun f =>
        match f with
        | FutureId.f1 => futureOf ("Branch 0 done in 2s.", none)
        | FutureId.f2 => futureOf ("Branch 1 is cancelled.", some CtxError.canceled))
      FutureId.f1) = 2 * Second ∧
    branchRun 11 (fun _ k => if 3 ≤ k then some CtxError.canceled else none) FutureId.f1
      = some (("Branch 0 done in 2s.", none), iterations 2) ∧
    sleeps (iterations 2) = 2 ∧ sleptTime (iterations 2) = 2 * Second ∧
    ActEvent.check true ∉ iterations 2 ∧
    (Env.mk (fun f =>
        match f with
        | FutureId.f1 => futureOf ("Branch 0 done in 2s.", none)
        | FutureId.f2 => futureOf ("Branch 1 is cancelled.", some CtxError.canceled))
      FutureId.f1).firstReady = FutureId.f1 ∧
    (SamplePickFirstWorkflow (Env.mk (fun f =>
        match f with
        | FutureId.f1 => futureOf ("Branch 0 done in 2s.", none)
        | FutureId.f2 => futureOf ("Branch 1 is cancelled.", some CtxError.canceled))
      FutureId.f1)).firstResponse = "Branch 0 done in 2s." ∧
    (∃ e tr, branchRun 11 (fun _ k => if 3 ≤ k then some CtxError.canceled else none)
        FutureId.f2 = some (("Branch 1 is cancelled.", some e), tr) ∧
      checks tr ≤ 3 ∧ sleeps tr ≤ 3 ∧ ActEvent.check true ∈ tr) ∧
    sampleActivity 11 (fun _ => none) 1 (Second * 10)
      = some (("Branch 1 done in 10s.", none), iterations 10) :=
  pickFirst_two_branches
    (Env.mk (fun f =>
        match f with
        | FutureId.f1 => futureOf ("Branch 0 done in 2s.", none)
        | FutureId.f2 => futureOf ("Branch 1 is cancelled.", some CtxError.canceled))
      FutureId.f1)
    (fun _ k => if 3 ≤ k then some CtxError.canceled else none)
    11 (by decide)
    (by
      intro k hk
      have h2 : (k : Int) * 1000000000 ≤ 2000000000 := hk
      have h3 : ¬ 3 ≤ k := by omega
      simp [h3])
    (by
      intro f k hk
      have h2 : (k : Int) * 1000000000 < 2000000000 := hk
      have h3 : ¬ 3 ≤ k := by omega
      simp [h3])
    (by
      intro f k hk
      have h2 : (2000000000 : Int) < k * 1000000000 := hk
      have h3 : 3 ≤ k := by omega
      simp [h3])
    (by
      intro f r tr h
      cases f
      · have h2 : some ((("Branch 0 done in 2s.", none) : String × Option CtxError),
            iterations 2) = some (r, tr) := h
        simp only [Option.some.injEq, Prod.mk.injEq] at h2
        rw [← h2.1]
      · have h2 : some ((("Branch 1 is cancelled.", some CtxError.canceled) :
            String × Option CtxError),
            iterations 2 ++ (iteration true ++ [ActEvent.logInfo "Branch 1 is cancelled."]))
            = some (r, tr) := h
        simp only [Option.some.injEq, Prod.mk.injEq] at h2
        rw [← h2.1])
    (by
      intro f
      cases f <;> decide)

end PickFirst
